import Mathlib

/-!
Verification development for the regbot registration-watch engine.

The definitions below are a shallow embedding of the Rust sources:
`src/ir.rs` (API data types, `RaceGuideEntry::num_splits`),
`src/ir_watcher.rs` (`iracing_loop_task` backoff, `iracing_loop` race-guide
deduplication, `update_series_info` catalog join, `SeriesReg::update` diff
engine, `Announcement`), `src/db.rs` (`Reg`, `Reg::wants`, `Db::upsert_reg`),
`src/cmds.rs` (`RegCommand::execute` default bounds) and `src/main.rs`
(`Messenger` batching).

Modelling conventions:
* Rust `i64` is modelled as `Int`; `i64` division (which truncates toward
  zero, `Int.tdiv` in Lean) is used wherever the source divides.  Overflow and
  division-by-zero panics are not modelled; every claim below stays in ranges
  where they cannot occur.
* `DateTime<Utc>` fields are modelled as an opaque `Int` timestamp; `String`
  fields as `String` (`String.length` stands in for `str::len`, identical on
  the ASCII payloads involved).
* `HashMap` state is modelled as a function `Int → Option _` where only
  per-key contents matter, and as an association list where insertion order
  or key multiplicity matters (`update_series_info`'s `series_by_id`).
* Rust `panic!` / `Option::unwrap` failure is modelled by an `Option` result
  (`none` = panic).
-/

namespace Regbot

/-- Track record from `src/ir.rs` (`pub struct Track`). -/
structure Track where
  track_id : Int
  track_name : String
  config_name : Option String
  category : Option String
deriving DecidableEq

/-- Schedule record from `src/ir.rs` (`pub struct Schedule`). -/
structure Schedule where
  series_id : Int
  season_id : Int
  race_week_num : Int
  series_name : String
  season_name : String
  track : Track
deriving DecidableEq

/-- Season record from `src/ir.rs` (`pub struct Season`). -/
structure Season where
  active : Bool
  official : Bool
  start_date : Int
  race_week : Int
  max_weeks : Int
  season_id : Int
  season_quarter : Int
  season_year : Int
  series_id : Int
  season_name : String
  schedules : List Schedule
deriving DecidableEq

/-- Series record from `src/ir.rs` (`pub struct Series`). -/
structure Series where
  category : String
  category_id : Int
  eligible : Bool
  max_starters : Int
  min_starters : Int
  oval_caution_type : Int
  road_caution_type : Int
  search_filters : Option String
  series_id : Int
  series_name : String
  series_short_name : String
deriving DecidableEq

/-- Race-guide entry from `src/ir.rs` (`pub struct RaceGuideEntry`). -/
structure RaceGuideEntry where
  season_id : Int
  start_time : Int
  super_session : Bool
  series_id : Int
  race_week_num : Int
  end_time : String
  session_id : Option Int
  entry_count : Int
deriving DecidableEq

/-- Embeds `RaceGuideEntry::num_splits` from `src/ir.rs`:
`1 + ((self.entry_count - 1) / split_at)` with Rust `i64` division
(truncation toward zero, i.e. `Int.tdiv`). -/
def RaceGuideEntry.num_splits (e : RaceGuideEntry) (split_at : Int) : Int :=
  1 + (e.entry_count - 1).tdiv split_at

/-- Announcement kind from `src/ir_watcher.rs` (`pub enum AnnouncementType`). -/
inductive AnnouncementType where
  | Open
  | Count
  | Closed
deriving DecidableEq

/-- Announcement from `src/ir_watcher.rs` (`pub struct Announcement`). -/
structure Announcement where
  series_name : String
  prev : RaceGuideEntry
  curr : RaceGuideEntry
  num_official : Int
  num_split : Int
  ann_type : AnnouncementType
deriving DecidableEq

/-- Embeds `Announcement::new` from `src/ir_watcher.rs`. -/
def Announcement.new (series_name : String) (prev curr : RaceGuideEntry)
    (num_official num_split : Int) (ann_type : AnnouncementType) : Announcement :=
  { series_name, prev, curr, num_official, num_split, ann_type }

/-- Embeds `Announcement::splits_changed` from `src/ir_watcher.rs`:
`self.prev.num_splits(self.num_split) != self.curr.num_splits(self.num_split)`. -/
def Announcement.splits_changed (a : Announcement) : Bool :=
  a.prev.num_splits a.num_split != a.curr.num_splits a.num_split

/-- Watch row from `src/db.rs` (`pub struct Reg`).  `GuildId`/`ChannelId` are
modelled as `Int`; the Rust fields `open` and `close` are named `open_` and
`close_` because `open` is a Lean keyword. -/
structure Reg where
  guild : Option Int
  channel : Int
  series_id : Int
  series_name : String
  min_reg : Int
  max_reg : Int
  open_ : Bool
  close_ : Bool
deriving DecidableEq

/-- Embeds `Reg::wants` from `src/db.rs`.  The Rust function begins with
`assert_eq!(self.series_id, ann.curr.series_id)`; the assertion failure is
modelled by returning `none`, and `some b` models a normal return of `b`. -/
def Reg.wants (r : Reg) (ann : Announcement) : Option Bool :=
  if r.series_id = ann.curr.series_id then
    some (match ann.ann_type with
      | AnnouncementType.Open => r.open_
      | AnnouncementType.Closed =>
          r.close_ && decide (ann.prev.entry_count ≥ r.min_reg)
      | AnnouncementType.Count =>
          (decide (ann.curr.entry_count ≥ r.min_reg) &&
             decide (ann.curr.entry_count ≤ r.max_reg))
          || (decide (ann.prev.entry_count < r.min_reg) &&
             decide (ann.curr.entry_count > r.max_reg))
          || ann.splits_changed)
  else none

/-- Helper: a concrete race-guide entry with the fields the claims care about
(`series_id`, `session_id`, `entry_count`); the remaining fields are fixed
arbitrary values. -/
def entryWith (sid : Int) (session : Option Int) (count : Int) : RaceGuideEntry :=
  { season_id := 0, start_time := 0, super_session := false, series_id := sid
  , race_week_num := 0, end_time := "", session_id := session, entry_count := count }

end Regbot

namespace Regbot

/-! ## Claim C8: `num_splits` closed form -/

/-- Claim C8: for every `entry_count ≥ 1` and `split_threshold ≥ 1`,
`num_splits(entry_count, split_threshold) = 1 + floor((entry_count - 1) / split_threshold)`
(`Int.fdiv` is the mathematical floor division). -/
theorem C8_num_splits_floor (e : RaceGuideEntry) (s : Int)
    (h1 : 1 ≤ e.entry_count) (h2 : 1 ≤ s) :
    e.num_splits s = 1 + (e.entry_count - 1).fdiv s := by
  unfold RaceGuideEntry.num_splits
  rw [Int.tdiv_eq_ediv (by omega) (by omega), Int.fdiv_eq_ediv _ (by omega)]

/-- Witness for C8 at the claim's own example inputs:
`num_splits(1, 10) = 1` and `num_splits(21, 10) = 3`. -/
theorem C8_num_splits_floor_witness :
    (entryWith 0 none 21).num_splits 10 = 1 + ((21 : Int) - 1).fdiv 10
    ∧ (entryWith 0 none 21).num_splits 10 = 3
    ∧ (entryWith 0 none 1).num_splits 10 = 1 := by
  refine ⟨C8_num_splits_floor (entryWith 0 none 21) 10 (by decide) (by decide), by decide, by decide⟩

/-! ## Claims C1, C5, C9: the `Reg::wants` match predicate -/

/-- Concrete watch for the `CountChanged` counterexample: band `[3, 5]`. -/
def regBand35 : Reg :=
  { guild := none, channel := 7, series_id := 1, series_name := "GT3"
  , min_reg := 3, max_reg := 5, open_ := false, close_ := false }

/-- Concrete `Count` announcement whose entry count jumps from 2 (below the
band) to 10 (above the band) with a split threshold of 100, so the split count
is 1 on both sides (unchanged). -/
def annJump : Announcement :=
  Announcement.new "GT3" (entryWith 1 (some 55) 2) (entryWith 1 (some 55) 10)
    10 100 AnnouncementType.Count

/-- Claim C1 as stated is false: `Reg::wants` returns true on a `CountChanged`
announcement whose current count lies outside `[min_reg, max_reg]` and whose
split count did not change, because of the jump-over disjunct
`prev.entry_count < min_reg && curr.entry_count > max_reg` in `src/db.rs`. -/
theorem C1_counterexample :
    regBand35.wants annJump = some true
    ∧ ¬((regBand35.min_reg ≤ annJump.curr.entry_count
          ∧ annJump.curr.entry_count ≤ regBand35.max_reg)
        ∨ annJump.splits_changed = true) := by decide

/-- Claim C1 (amended): for a `CountChanged` announcement on the watch's
series, `Reg::wants` returns true iff (a) the current entry count lies within
`[min_reg, max_reg]` inclusive, or (b) the split count changed, or (c) the
previous count is below `min_reg` and the current count is above `max_reg`. -/
theorem C1_count_matches_iff (r : Reg) (a : Announcement)
    (hs : r.series_id = a.curr.series_id) (ht : a.ann_type = AnnouncementType.Count) :
    r.wants a = some true ↔
      ((r.min_reg ≤ a.curr.entry_count ∧ a.curr.entry_count ≤ r.max_reg)
        ∨ a.splits_changed = true
        ∨ (a.prev.entry_count < r.min_reg ∧ r.max_reg < a.curr.entry_count)) := by
  simp only [Reg.wants, hs, if_pos, ht, Option.some_inj, Bool.or_eq_true,
    Bool.and_eq_true, decide_eq_true_eq, ge_iff_le, gt_iff_lt]
  tauto

/-- Witness for C1 (amended) at the jump-over inputs. -/
theorem C1_count_matches_iff_witness :
    regBand35.wants annJump = some true ↔
      ((regBand35.min_reg ≤ annJump.curr.entry_count
          ∧ annJump.curr.entry_count ≤ regBand35.max_reg)
        ∨ annJump.splits_changed = true
        ∨ (annJump.prev.entry_count < regBand35.min_reg
          ∧ regBand35.max_reg < annJump.curr.entry_count)) :=
  C1_count_matches_iff regBand35 annJump rfl rfl

/-- Claim C5: for a `Closed` announcement on the watch's series, `Reg::wants`
returns true iff `notify_on_close` (`close` in `src/db.rs`) is set and the
previous snapshot's entry count is at least `min_reg`. -/
theorem C5_closed_matches_iff (r : Reg) (a : Announcement)
    (hs : r.series_id = a.curr.series_id) (ht : a.ann_type = AnnouncementType.Closed) :
    r.wants a = some true ↔ (r.close_ = true ∧ r.min_reg ≤ a.prev.entry_count) := by
  simp only [Reg.wants, hs, if_pos, ht, Option.some_inj, Bool.and_eq_true,
    decide_eq_true_eq, ge_iff_le]

/-- Concrete watch for the C5 examples: `notify_on_close = true`, `min_reg = 5`. -/
def regClose5 : Reg :=
  { guild := none, channel := 7, series_id := 2, series_name := "MX5"
  , min_reg := 5, max_reg := 9, open_ := false, close_ := true }

/-- Closed announcement on series 2 whose previous entry count is `n`. -/
def annClosedPrev (n : Int) : Announcement :=
  Announcement.new "MX5" (entryWith 2 (some 55) n) (entryWith 2 none n)
    10 20 AnnouncementType.Closed

/-- Witness for C5: the claim's concrete pair — with `min_reg = 5` a previous
count of 3 does not match, a previous count of 5 does. -/
theorem C5_closed_matches_iff_witness :
    (regClose5.wants (annClosedPrev 3) = some true ↔
      (regClose5.close_ = true ∧ regClose5.min_reg ≤ (annClosedPrev 3).prev.entry_count))
    ∧ regClose5.wants (annClosedPrev 3) = some false
    ∧ regClose5.wants (annClosedPrev 5) = some true :=
  ⟨C5_closed_matches_iff regClose5 (annClosedPrev 3) rfl rfl, by decide, by decide⟩

/-- Claim C9: for a `CountChanged` announcement on the watch's series,
`Reg::wants` returns true whenever the previous entry count is below `min_reg`
and the current entry count is above `max_reg` (the count jumped over the
configured band), with no assumption on the split counts. -/
theorem C9_jump_over_matches (r : Reg) (a : Announcement)
    (hs : r.series_id = a.curr.series_id) (ht : a.ann_type = AnnouncementType.Count)
    (h1 : a.prev.entry_count < r.min_reg) (h2 : r.max_reg < a.curr.entry_count) :
    r.wants a = some true := by
  simp only [Reg.wants, hs, if_pos, ht, Option.some_inj, Bool.or_eq_true,
    Bool.and_eq_true, decide_eq_true_eq]
  exact Or.inl (Or.inr ⟨h1, h2⟩)

/-- Witness for C9 at inputs where, in addition, the current count is outside
the band and the split count is unchanged. -/
theorem C9_jump_over_matches_witness :
    regBand35.wants annJump = some true
    ∧ regBand35.max_reg < annJump.curr.entry_count
    ∧ annJump.splits_changed = false :=
  ⟨C9_jump_over_matches regBand35 annJump rfl rfl (by decide) (by decide),
    by decide, by decide⟩

/-! ## Claim C6: the `SeriesReg::update` diff engine -/

/-- Per-series diff-engine state from `src/ir_watcher.rs` (`struct SeriesReg`). -/
structure SeriesReg where
  series : Series
  season : Season
  race_guide : Option RaceGuideEntry
deriving DecidableEq

/-- Embeds `SeriesReg::new` from `src/ir_watcher.rs`. -/
def SeriesReg.new (series : Series) (season : Season) : SeriesReg :=
  { series, season, race_guide := none }

/-- Embeds `SeriesReg::series_id` from `src/ir_watcher.rs`. -/
def SeriesReg.series_id (sr : SeriesReg) : Int :=
  sr.series.series_id

/-- Embeds `SeriesReg::update` from `src/ir_watcher.rs`.  The Rust method
mutates `self.race_guide` and returns `Option<Announcement>`; here the new
state is returned alongside the optional announcement. -/
def SeriesReg.update (sr : SeriesReg) (e : RaceGuideEntry) : SeriesReg × Option Announcement :=
  match sr.race_guide with
  | none => ({ sr with race_guide := some e }, none)
  | some prev =>
    let ann : Option Announcement :=
      if prev.session_id.isNone && e.session_id.isSome then
        some (Announcement.new sr.series.series_name prev e
          sr.series.min_starters sr.series.max_starters AnnouncementType.Open)
      else if prev.session_id.isSome && e.session_id.isSome
          && decide (prev.entry_count ≠ e.entry_count)
          && (decide (prev.entry_count > 0) || decide (e.entry_count > 0)) then
        some (Announcement.new sr.series.series_name prev e
          sr.series.min_starters sr.series.max_starters AnnouncementType.Count)
      else if prev.session_id.isSome && e.session_id.isNone
          && decide (prev.entry_count > 0) then
        some (Announcement.new sr.series.series_name prev e
          sr.series.min_starters sr.series.max_starters AnnouncementType.Closed)
      else
        none
    ({ sr with race_guide := some e }, ann)

/-- Claim C6: in the Tracking state (a previous snapshot `prev` is stored),
`SeriesReg::update` emits a `Closed` announcement iff `prev.session_id` is
some, the new entry's `session_id` is none and `prev.entry_count > 0`; and in
every case the stored snapshot is replaced by the new entry. -/
theorem C6_closed_emission (sr : SeriesReg) (e prev : RaceGuideEntry)
    (h : sr.race_guide = some prev) :
    ((∃ a, (sr.update e).2 = some a ∧ a.ann_type = AnnouncementType.Closed) ↔
      (prev.session_id.isSome = true ∧ e.session_id = none ∧ 0 < prev.entry_count))
    ∧ (sr.update e).1.race_guide = some e := by
  refine ⟨?_, by simp only [SeriesReg.update, h]⟩
  simp only [SeriesReg.update, h]
  split_ifs with h1 h2 h3
  · simp only [Bool.and_eq_true, Option.isNone_iff_eq_none] at h1
    simp [Announcement.new, h1.1]
  · simp only [Bool.and_eq_true, Option.isSome_iff_exists] at h2
    obtain ⟨⟨⟨-, x, hx⟩, -⟩, -⟩ := h2
    simp [Announcement.new, hx]
  · simp only [Bool.and_eq_true, Option.isNone_iff_eq_none, decide_eq_true_eq] at h3
    simp only [Option.some_inj]
    constructor
    · intro _
      exact ⟨h3.1.1, h3.1.2, h3.2⟩
    · intro _
      exact ⟨Announcement.new sr.series.series_name prev e
        sr.series.min_starters sr.series.max_starters AnnouncementType.Closed, rfl, rfl⟩
  · simp only [Bool.and_eq_true, Option.isNone_iff_eq_none, decide_eq_true_eq] at h3
    constructor
    · rintro ⟨a, ha, -⟩
      exact absurd ha (by simp)
    · rintro ⟨hp, hn, hc⟩
      exact absurd ⟨⟨hp, hn⟩, hc⟩ h3

/-- Concrete series and season used by the diff-engine and catalog witnesses. -/
def seriesA : Series :=
  { category := "road", category_id := 2, eligible := true, max_starters := 20
  , min_starters := 10, oval_caution_type := 0, road_caution_type := 2
  , search_filters := none, series_id := 3, series_name := "PCC"
  , series_short_name := "PCC" }

/-- Concrete season for series 3. -/
def seasonA : Season :=
  { active := true, official := true, start_date := 0, race_week := 1
  , max_weeks := 12, season_id := 100, season_quarter := 1, season_year := 2024
  , series_id := 3, season_name := "PCC S1", schedules := [] }

/-- Tracking-state diff engine for series 3, last snapshot: open session with
4 entries. -/
def srTracking : SeriesReg :=
  { series := seriesA, season := seasonA, race_guide := some (entryWith 3 (some 9) 4) }

/-- Witness for C6 at a concrete Tracking state and a session-close entry. -/
theorem C6_closed_emission_witness :
    ((∃ a, (srTracking.update (entryWith 3 none 4)).2 = some a
        ∧ a.ann_type = AnnouncementType.Closed) ↔
      ((entryWith 3 (some 9) 4).session_id.isSome = true
        ∧ (entryWith 3 none 4).session_id = none
        ∧ 0 < (entryWith 3 (some 9) 4).entry_count))
    ∧ (srTracking.update (entryWith 3 none 4)).1.race_guide = some (entryWith 3 none 4) :=
  C6_closed_emission srTracking (entryWith 3 none 4) (entryWith 3 (some 9) 4) rfl

/-! ## Claim C7: race-guide deduplication in `iracing_loop` -/

/-- Invariant of the poller's `series_state` map: every stored `SeriesReg` is
keyed by its own series id (this is how `update_series_info` builds the map,
inserting at key `series.series_id`). -/
def wellKeyed (st : Int → Option SeriesReg) : Prop :=
  ∀ k sr, st k = some sr → sr.series_id = k

/-- Note `SeriesReg::update` never changes the `series` field. -/
theorem SeriesReg.update_series_id (sr : SeriesReg) (e : RaceGuideEntry) :
    (sr.update e).1.series_id = sr.series_id := by
  unfold SeriesReg.update
  cases sr.race_guide <;> rfl

/-- Embeds the race-guide processing loop of `iracing_loop` in
`src/ir_watcher.rs`: iterate over `guide.sessions`; skip an entry whose
`series_id` was already seen this poll (`seen.insert` returned false);
otherwise, if `series_state` holds the series, run `SeriesReg::update` and, if
it returned an announcement, insert it into the announcements map at key
`sr.series_id()`.  The two `HashMap`s are modelled as functions. -/
def pollGuide (seen : List Int) (st : Int → Option SeriesReg)
    (anns : Int → Option Announcement) :
    List RaceGuideEntry → (Int → Option SeriesReg) × (Int → Option Announcement)
  | [] => (st, anns)
  | e :: rest =>
    if e.series_id ∈ seen then
      pollGuide seen st anns rest
    else
      match st e.series_id with
      | none => pollGuide (e.series_id :: seen) st anns rest
      | some sr =>
        let p := sr.update e
        let st' : Int → Option SeriesReg :=
          fun k => if k = e.series_id then some p.1 else st k
        let anns' : Int → Option Announcement :=
          match p.2 with
          | none => anns
          | some msg => fun k => if k = p.1.series_id then some msg else anns k
        pollGuide (e.series_id :: seen) st' anns' rest

/-- The well-keyed invariant is preserved by writing back an updated
`SeriesReg` at its own key. -/
theorem wellKeyed_update {st : Int → Option SeriesReg} {e : RaceGuideEntry}
    {sr : SeriesReg} (hwk : wellKeyed st) (hst : st e.series_id = some sr) :
    wellKeyed (fun k => if k = e.series_id then some (sr.update e).1 else st k) := by
  intro k sr' h
  simp only at h
  by_cases hk : k = e.series_id
  · subst hk
    rw [if_pos rfl, Option.some_inj] at h
    rw [← h, SeriesReg.update_series_id]
    exact hwk _ _ hst
  · rw [if_neg hk] at h
    exact hwk _ _ h

/-- Keys whose series id was already seen this poll are left untouched in both
maps by the remainder of the iteration. -/
theorem pollGuide_seen (guide : List RaceGuideEntry) :
    ∀ (seen : List Int) (st : Int → Option SeriesReg)
      (anns : Int → Option Announcement) (s : Int), wellKeyed st → s ∈ seen →
      (pollGuide seen st anns guide).1 s = st s
      ∧ (pollGuide seen st anns guide).2 s = anns s := by
  induction guide with
  | nil => intro seen st anns s _ _; exact ⟨rfl, rfl⟩
  | cons e rest ih =>
    intro seen st anns s hwk hs
    by_cases hmem : e.series_id ∈ seen
    · simpa only [pollGuide, if_pos hmem] using ih seen st anns s hwk hs
    · have hne : s ≠ e.series_id := fun h => hmem (h ▸ hs)
      cases hst : st e.series_id with
      | none =>
        simpa only [pollGuide, if_neg hmem, hst] using
          ih (e.series_id :: seen) st anns s hwk (List.mem_cons_of_mem _ hs)
      | some sr =>
        have h2 := ih (e.series_id :: seen)
          (fun k => if k = e.series_id then some (sr.update e).1 else st k)
          (match (sr.update e).2 with
            | none => anns
            | some msg =>
                fun k => if k = (sr.update e).1.series_id then some msg else anns k)
          s (wellKeyed_update hwk hst) (List.mem_cons_of_mem _ hs)
        simp only at h2
        rw [if_neg hne] at h2
        have hkey : (sr.update e).1.series_id = e.series_id := by
          rw [SeriesReg.update_series_id]; exact hwk _ _ hst
        constructor
        · rw [pollGuide, if_neg hmem, hst]
          exact h2.1
        · rw [pollGuide, if_neg hmem, hst]
          refine h2.2.trans ?_
          cases hup : (sr.update e).2 with
          | none => rfl
          | some msg =>
            simp only [hkey]
            rw [if_neg hne]

/-- Reading the announcements map back at the key a `SeriesReg::update` result
was just (conditionally) inserted at. -/
theorem annsInsert_self (anns : Int → Option Announcement) (o : Option Announcement)
    (key : Int) :
    (match o with
      | none => anns
      | some msg => fun k => if k = key then some msg else anns k) key
      = o.or (anns key) := by
  cases o with
  | none => rfl
  | some msg =>
    simp only [eq_self_iff_true, if_true]
    rfl

/-- Characterization of one poll iteration at a not-yet-seen key `s`: the
state slot for `s` is updated exactly once, by the first guide entry whose
`series_id` is `s` (if any, and only if the series is known), and the
announcements map at `s` holds exactly what that single update produced. -/
theorem pollGuide_unseen (guide : List RaceGuideEntry) :
    ∀ (seen : List Int) (st : Int → Option SeriesReg)
      (anns : Int → Option Announcement) (s : Int), wellKeyed st → s ∉ seen →
      ((pollGuide seen st anns guide).1 s =
        match List.find? (fun e => e.series_id == s) guide, st s with
        | some e, some sr => some (sr.update e).1
        | _, _ => st s)
      ∧ ((pollGuide seen st anns guide).2 s =
        match List.find? (fun e => e.series_id == s) guide, st s with
        | some e, some sr => Option.or (sr.update e).2 (anns s)
        | _, _ => anns s) := by
  induction guide with
  | nil =>
    intro seen st anns s _ _
    cases h : st s <;> simp [pollGuide, h]
  | cons e rest ih =>
    intro seen st anns s hwk hs
    by_cases heq : e.series_id = s
    · subst heq
      have hf : List.find? (fun x => x.series_id == e.series_id) (e :: rest) = some e :=
        List.find?_cons_of_pos _ (by simp)
      rw [pollGuide, if_neg hs, hf]
      cases hst : st e.series_id with
      | none =>
        have h1 := pollGuide_seen rest (e.series_id :: seen) st anns e.series_id hwk
          (List.mem_cons_self _ _)
        exact ⟨h1.1.trans hst, h1.2⟩
      | some sr =>
        have hwk' := wellKeyed_update hwk hst
        have hkey : (sr.update e).1.series_id = e.series_id := by
          rw [SeriesReg.update_series_id]; exact hwk _ _ hst
        have h1 := pollGuide_seen rest (e.series_id :: seen)
          (fun k => if k = e.series_id then some (sr.update e).1 else st k)
          (match (sr.update e).2 with
            | none => anns
            | some msg =>
                fun k => if k = (sr.update e).1.series_id then some msg else anns k)
          e.series_id hwk' (List.mem_cons_self _ _)
        simp only [eq_self_iff_true, if_true] at h1
        refine ⟨h1.1, h1.2.trans ?_⟩
        simp only [hkey]
        exact annsInsert_self anns (sr.update e).2 e.series_id
    · have hf : List.find? (fun x => x.series_id == s) (e :: rest)
          = List.find? (fun x => x.series_id == s) rest :=
        List.find?_cons_of_neg _ (by simp [heq])
      have hs' : s ∉ e.series_id :: seen := by
        intro h
        rcases List.mem_cons.mp h with h | h
        · exact heq h.symm
        · exact hs h
      rw [pollGuide, hf]
      by_cases hmem : e.series_id ∈ seen
      · rw [if_pos hmem]
        exact ih seen st anns s hwk hs
      · rw [if_neg hmem]
        cases hst : st e.series_id with
        | none => exact ih (e.series_id :: seen) st anns s hwk hs'
        | some sr =>
          have hwk' := wellKeyed_update hwk hst
          have hkey : (sr.update e).1.series_id = e.series_id := by
            rw [SeriesReg.update_series_id]; exact hwk _ _ hst
          have h1 := ih (e.series_id :: seen)
            (fun k => if k = e.series_id then some (sr.update e).1 else st k)
            (match (sr.update e).2 with
              | none => anns
              | some msg =>
                  fun k => if k = (sr.update e).1.series_id then some msg else anns k)
            s hwk' hs'
          have hne : s ≠ e.series_id := fun h => heq h.symm
          simp only at h1
          rw [if_neg hne] at h1
          have hanns :
              (match (sr.update e).2 with
                | none => anns
                | some msg =>
                    fun k => if k = (sr.update e).1.series_id then some msg else anns k) s
              = anns s := by
            cases hup : (sr.update e).2 with
            | none => rfl
            | some msg =>
              simp only [hkey]
              rw [if_neg hne]
          rw [hanns] at h1
          exact h1

/-- Claim C7: in one poll of `iracing_loop`, for every series id `s`, the
`series_state` slot for `s` is updated exactly once, by the first guide entry
carrying that `series_id` (later duplicates are skipped by the `seen` set),
and the announcements map holds at most the one announcement that single
update produced — so a guide with three entries for the same series causes one
snapshot update and at most one announcement for it. -/
theorem C7_dedup_first_entry_only (guide : List RaceGuideEntry)
    (st : Int → Option SeriesReg) (s : Int) (hwk : wellKeyed st) :
    ((pollGuide [] st (fun _ => none) guide).1 s =
      match List.find? (fun e => e.series_id == s) guide, st s with
      | some e, some sr => some (sr.update e).1
      | _, _ => st s)
    ∧ ((pollGuide [] st (fun _ => none) guide).2 s =
      match List.find? (fun e => e.series_id == s) guide, st s with
      | some e, some sr => (sr.update e).2
      | _, _ => none) := by
  have h := pollGuide_unseen guide [] st (fun _ => none) s hwk (List.not_mem_nil s)
  refine ⟨h.1, h.2.trans ?_⟩
  cases List.find? (fun e => e.series_id == s) guide <;>
    cases st s <;> simp [Option.or_none]

/-- Poller state holding exactly the Tracking-state engine for series 3. -/
def stPoll : Int → Option SeriesReg := fun k => if k = 3 then some srTracking else none

/-- A poll guide listing series 3 three times with different `start_time`s and
entry counts, as in the claim's deduplication scenario. -/
def guideThree : List RaceGuideEntry :=
  [entryWith 3 (some 9) 6, { entryWith 3 (some 9) 8 with start_time := 1 },
    { entryWith 3 (some 9) 11 with start_time := 2 }]

/-- Witness for C7 on a guide containing three entries for series 3. -/
theorem C7_dedup_first_entry_only_witness :
    ((pollGuide [] stPoll (fun _ => none) guideThree).1 3 =
      match List.find? (fun e => e.series_id == 3) guideThree, stPoll 3 with
      | some e, some sr => some (sr.update e).1
      | _, _ => stPoll 3)
    ∧ ((pollGuide [] stPoll (fun _ => none) guideThree).2 3 =
      match List.find? (fun e => e.series_id == 3) guideThree, stPoll 3 with
      | some e, some sr => (sr.update e).2
      | _, _ => none) :=
  C7_dedup_first_entry_only guideThree stPoll 3 (by
    intro k sr h
    simp only [stPoll] at h
    by_cases hk : k = (3 : Int)
    · rw [if_pos hk, Option.some_inj] at h
      rw [← h, hk]; rfl
    · rw [if_neg hk] at h
      exact absurd h (by simp))

/-! ## Claim C10: the seasons-to-series join in `update_series_info` -/

/-- Embeds building `series_by_id` in `update_series_info`
(`src/ir_watcher.rs`): a `HashMap<i64, Series>` filled by
`series_by_id.insert(s.series_id, s)`, modelled as an association list where
insertion replaces any existing binding for the key. -/
def insertSeries (m : List (Int × Series)) (s : Series) : List (Int × Series) :=
  if m.any (fun p => p.1 == s.series_id) then
    m.map (fun p => if p.1 == s.series_id then (s.series_id, s) else p)
  else m ++ [(s.series_id, s)]

/-- The `series_by_id` map after inserting every fetched series in order. -/
def buildSeriesById (series : List Series) : List (Int × Series) :=
  series.foldl insertSeries []

/-- Lookup in the association-list model of `series_by_id`. -/
def lookupById (m : List (Int × Series)) (k : Int) : Option Series :=
  (m.find? (fun p => p.1 == k)).map Prod.snd

/-- Removal (`HashMap::remove`) in the association-list model. -/
def removeById (m : List (Int × Series)) (k : Int) : List (Int × Series) :=
  m.filter (fun p => p.1 != k)

/-- Key list of the association-list model. -/
def keysOf (m : List (Int × Series)) : List Int :=
  m.map Prod.fst

/-- Embeds the seasons loop of `update_series_info` (`src/ir_watcher.rs`):
for each season, `series_by_id.remove(&season.series_id).unwrap()` — `none`
models the `unwrap` panic — then
`series_state.entry(series.series_id).or_insert_with(|| SeriesReg::new(series, season))`. -/
def processSeasons : List (Int × Series) → (Int → Option SeriesReg) → List Season →
    Option (Int → Option SeriesReg)
  | _, st, [] => some st
  | m, st, season :: rest =>
    match lookupById m season.series_id with
    | none => none
    | some series =>
        processSeasons (removeById m season.series_id)
          (fun k => if k = series.series_id then
              some ((st series.series_id).getD (SeriesReg.new series season))
            else st k)
          rest

/-- Embeds `update_series_info` from `src/ir_watcher.rs` up to its effects:
the function also derives a `SeasonInfo` per tracked series and sends it over
the channel, which cannot fail and does not touch `series_state`; the result
is the updated `series_state`, `none` modelling the `unwrap` panic in the
join. -/
def update_series_info (series : List Series) (seasons : List Season)
    (st : Int → Option SeriesReg) : Option (Int → Option SeriesReg) :=
  processSeasons (buildSeriesById series) st seasons

/-- A `lookupById` succeeds exactly on the stored keys. -/
theorem lookupById_isSome (m : List (Int × Series)) (k : Int) :
    (lookupById m k).isSome = true ↔ k ∈ keysOf m := by
  simp only [lookupById, keysOf, Option.isSome_map', List.find?_isSome, List.mem_map,
    beq_iff_eq]

/-- Removal deletes exactly the requested key. -/
theorem mem_keysOf_removeById (m : List (Int × Series)) (k j : Int) :
    j ∈ keysOf (removeById m k) ↔ j ∈ keysOf m ∧ j ≠ k := by
  simp only [keysOf, removeById, List.mem_map, List.mem_filter, bne_iff_ne]
  constructor
  · rintro ⟨p, ⟨hp, hne⟩, rfl⟩
    exact ⟨⟨p, hp, rfl⟩, hne⟩
  · rintro ⟨⟨p, hp, rfl⟩, hne⟩
    exact ⟨p, ⟨hp, hne⟩, rfl⟩

/-- Replacing insertion adds exactly the inserted key. -/
theorem mem_keysOf_insertSeries (m : List (Int × Series)) (s : Series) (j : Int) :
    j ∈ keysOf (insertSeries m s) ↔ j ∈ keysOf m ∨ j = s.series_id := by
  unfold insertSeries
  split_ifs with h
  · have hfst : ∀ p : Int × Series,
        (if p.1 == s.series_id then (s.series_id, s) else p).1 = p.1 := by
      intro p
      split_ifs with hb
      · exact (beq_iff_eq.mp hb).symm
      · rfl
    have hkeys : keysOf (m.map fun p => if p.1 == s.series_id then (s.series_id, s) else p)
        = keysOf m := by
      simp only [keysOf, List.map_map]
      exact List.map_congr_left fun p _ => hfst p
    have hmem : s.series_id ∈ keysOf m := by
      rcases List.any_eq_true.mp h with ⟨p, hp, hb⟩
      exact List.mem_map.mpr ⟨p, hp, beq_iff_eq.mp hb⟩
    rw [hkeys]
    constructor
    · exact Or.inl
    · rintro (hj | rfl)
      · exact hj
      · exact hmem
  · simp [keysOf]

/-- Key membership of the fully built `series_by_id` map. -/
theorem mem_keysOf_buildSeriesById (series : List Series) (j : Int) :
    j ∈ keysOf (buildSeriesById series) ↔ j ∈ series.map Series.series_id := by
  have hfold : ∀ (m : List (Int × Series)),
      j ∈ keysOf (series.foldl insertSeries m) ↔
        j ∈ keysOf m ∨ j ∈ series.map Series.series_id := by
    induction series with
    | nil => intro m; simp
    | cons s rest ih =>
      intro m
      simp only [List.foldl_cons, List.map_cons, List.mem_cons]
      rw [ih, mem_keysOf_insertSeries]
      tauto
  rw [buildSeriesById, hfold]
  simp [keysOf]

/-- The seasons loop completes iff the seasons' series ids are pairwise
distinct and each is a key of the map. -/
theorem processSeasons_isSome (seasons : List Season) :
    ∀ (m : List (Int × Series)) (st : Int → Option SeriesReg),
      (processSeasons m st seasons).isSome = true ↔
        ((seasons.map Season.series_id).Nodup
          ∧ ∀ se ∈ seasons, se.series_id ∈ keysOf m) := by
  induction seasons with
  | nil => intro m st; simp [processSeasons]
  | cons se rest ih =>
    intro m st
    rw [processSeasons]
    cases hl : lookupById m se.series_id with
    | none =>
      have hnk : se.series_id ∉ keysOf m := by
        intro hk
        have := (lookupById_isSome m se.series_id).mpr hk
        rw [hl] at this
        exact absurd this (by simp)
      simp only [Option.isSome_none, Bool.false_eq_true, false_iff, not_and]
      intro _ hall
      exact hnk (hall se (List.mem_cons_self _ _))
    | some series =>
      have hk : se.series_id ∈ keysOf m :=
        (lookupById_isSome m se.series_id).mp (by rw [hl]; rfl)
      rw [ih]
      simp only [List.map_cons, List.nodup_cons, List.mem_cons, List.mem_map]
      constructor
      · rintro ⟨hnd, hall⟩
        have hall' : ∀ r ∈ rest, r.series_id ∈ keysOf m ∧ r.series_id ≠ se.series_id :=
          fun r hr => (mem_keysOf_removeById m se.series_id r.series_id).mp (hall r hr)
        refine ⟨⟨?_, hnd⟩, ?_⟩
        · rintro ⟨r, hr, hid⟩
          exact (hall' r hr).2 hid
        · rintro x (rfl | hx)
          · exact hk
          · exact (hall' x hx).1
      · rintro ⟨⟨hno, hnd⟩, hall⟩
        refine ⟨hnd, fun r hr => ?_⟩
        rw [mem_keysOf_removeById]
        exact ⟨hall r (Or.inr hr), fun hid => hno ⟨r, hr, hid⟩⟩

/-- A second series record sharing `series_id = 3` with `seriesA`. -/
def seriesA2 : Series :=
  { seriesA with series_name := "PCC Duplicate", series_short_name := "PCCD" }

/-- Claim C10 as stated is false: its necessary precondition — "every season's
series_id occurs exactly once among the fetched series" — is violated by a
completing run.  With two fetched series sharing `series_id = 3`
(`HashMap::insert` keeps only the last) and one season for series 3, the join
completes without panic although the season's `series_id` occurs twice among
the fetched series. -/
theorem C10_counterexample :
    (update_series_info [seriesA, seriesA2] [seasonA] (fun _ => none)).isSome = true
    ∧ ([seriesA, seriesA2].map Series.series_id).count seasonA.series_id ≠ 1 := by
  constructor
  · rfl
  · decide

/-- Claim C10 (amended): the join of `update_series_info` panics
(`remove(..).unwrap()` on a missing key) exactly when some season's
`series_id` is absent from the remaining series map; it completes without
panic iff the fetched seasons' series ids are pairwise distinct and each of
them occurs among the fetched series' ids (a second season with the same
`series_id`, or a season with no matching series, panics). -/
theorem C10_join_completes_iff (series : List Series) (seasons : List Season)
    (st : Int → Option SeriesReg) :
    (update_series_info series seasons st).isSome = true ↔
      ((seasons.map Season.series_id).Nodup
        ∧ ∀ se ∈ seasons, se.series_id ∈ series.map Series.series_id) := by
  rw [update_series_info, processSeasons_isSome]
  constructor
  · rintro ⟨hnd, hall⟩
    exact ⟨hnd, fun se hse =>
      (mem_keysOf_buildSeriesById series se.series_id).mp (hall se hse)⟩
  · rintro ⟨hnd, hall⟩
    exact ⟨hnd, fun se hse =>
      (mem_keysOf_buildSeriesById series se.series_id).mpr (hall se hse)⟩

/-! ## Claim C2: the watch write path stores bounds unclamped -/

/-- The watcher's `SeasonInfo` from `src/ir_watcher.rs`, as stored in
`HandlerState::seasons` and read by `RegCommand::execute`. -/
structure SeasonInfo where
  series_id : Int
  reg_official : Int
  reg_split : Int
  name : String
  lc_name : String
deriving DecidableEq

/-- Embeds the `Reg` construction in `RegCommand::execute` (`src/cmds.rs`):
`min_reg = maybe_min_reg.unwrap_or(series.reg_official / 2)` and
`max_reg = maybe_max_reg.unwrap_or((series.reg_split - series.reg_official) / 2 + series.reg_official)`
with Rust `i64` division; no further adjustment of either bound. -/
def buildReg (guild : Option Int) (channel : Int) (series_id : Int)
    (series : SeasonInfo) (maybe_min_reg maybe_max_reg : Option Int)
    (open_ close_ : Bool) : Reg :=
  { guild, channel, series_id
  , series_name := series.name
  , min_reg := maybe_min_reg.getD (series.reg_official.tdiv 2)
  , max_reg := maybe_max_reg.getD
      (((series.reg_split - series.reg_official).tdiv 2) + series.reg_official)
  , open_, close_ }

/-- Embeds `Db::upsert_reg` (`src/db.rs`): the `reg` table has primary key
`(channel_id, series_id)`; `ON CONFLICT DO UPDATE` replaces only `min_reg`,
`max_reg`, `open`, `close` (and a timestamp, not modelled), otherwise the row
is inserted as given.  `created_by` and the audit timestamps are not
modelled. -/
def upsert_reg (table : List Reg) (reg : Reg) : List Reg :=
  if table.any (fun r => r.channel == reg.channel && r.series_id == reg.series_id) then
    table.map (fun r =>
      if r.channel == reg.channel && r.series_id == reg.series_id then
        { r with min_reg := reg.min_reg, max_reg := reg.max_reg,
                 open_ := reg.open_, close_ := reg.close_ }
      else r)
  else table ++ [reg]

/-- After `upsert_reg`, a row with the watch's key exists and every row with
that key carries exactly the written `min_reg` and `max_reg`. -/
theorem upsert_reg_stores_bounds (table : List Reg) (reg : Reg) :
    (∃ r ∈ upsert_reg table reg, r.channel = reg.channel ∧ r.series_id = reg.series_id)
    ∧ ∀ r ∈ upsert_reg table reg, r.channel = reg.channel → r.series_id = reg.series_id →
        r.min_reg = reg.min_reg ∧ r.max_reg = reg.max_reg := by
  unfold upsert_reg
  split_ifs with h
  · rcases List.any_eq_true.mp h with ⟨x, hx, hb⟩
    rw [Bool.and_eq_true, beq_iff_eq, beq_iff_eq] at hb
    constructor
    · have hcb : (x.channel == reg.channel && x.series_id == reg.series_id) = true := by
        rw [Bool.and_eq_true, beq_iff_eq, beq_iff_eq]; exact hb
      refine ⟨{ x with min_reg := reg.min_reg, max_reg := reg.max_reg,
                       open_ := reg.open_, close_ := reg.close_ }, ?_, hb.1, hb.2⟩
      have hmem := List.mem_map_of_mem (fun r =>
        if r.channel == reg.channel && r.series_id == reg.series_id then
          { r with min_reg := reg.min_reg, max_reg := reg.max_reg,
                   open_ := reg.open_, close_ := reg.close_ }
        else r) hx
      simp only at hmem
      rwa [if_pos hcb] at hmem
    · intro r hr hch hsid
      rcases List.mem_map.mp hr with ⟨y, hy, hfy⟩
      by_cases hc : (y.channel == reg.channel && y.series_id == reg.series_id) = true
      · rw [if_pos hc] at hfy
        rw [← hfy]
        exact ⟨rfl, rfl⟩
      · rw [if_neg hc] at hfy
        rw [← hfy] at hch hsid
        exact absurd (by rw [Bool.and_eq_true, beq_iff_eq, beq_iff_eq]; exact ⟨hch, hsid⟩) hc
  · constructor
    · exact ⟨reg, List.mem_append.mpr (Or.inr (List.mem_singleton.mpr rfl)), rfl, rfl⟩
    · intro r hr hch hsid
      rcases List.mem_append.mp hr with hr | hr
      · exfalso
        apply h
        exact List.any_eq_true.mpr ⟨r, hr,
          by rw [Bool.and_eq_true, beq_iff_eq, beq_iff_eq]; exact ⟨hch, hsid⟩⟩
      · rw [List.mem_singleton.mp hr]
        exact ⟨rfl, rfl⟩

/-- Concrete series info for the C2 upsert: official threshold 10, split 20. -/
def seasonInfoPCC : SeasonInfo :=
  { series_id := 3, reg_official := 10, reg_split := 20, name := "PCC", lc_name := "pcc" }

/-- The watch produced by a `/watch` invocation supplying `min_reg = 50`,
`max_reg = 40`. -/
def regFiftyForty : Reg :=
  buildReg none 7 3 seasonInfoPCC (some 50) (some 40) false false

/-- Claim C2 as stated is false: an upsert with caller-supplied
`min_reg = 50, max_reg = 40` is stored exactly as `min_reg = 50, max_reg = 40`
— neither `RegCommand::execute` nor `Db::upsert_reg` clamps, so the stored
watch violates `max_reg ≥ min_reg + 1` and is not the claimed `(50, 51)`. -/
theorem C2_counterexample :
    upsert_reg [] regFiftyForty = [regFiftyForty]
    ∧ regFiftyForty.min_reg = 50 ∧ regFiftyForty.max_reg = 40
    ∧ ¬ (regFiftyForty.min_reg + 1 ≤ regFiftyForty.max_reg) := by decide

/-- Claim C2 (amended): the write path performs no clamping — for every prior
table state and every create-or-update (caller-supplied or defaulted bounds),
the stored watch carries exactly `min_reg = maybe_min_reg.unwrap_or(official/2)`
and `max_reg = maybe_max_reg.unwrap_or((split-official)/2 + official)`; in
particular `min_reg = 50, max_reg = 40` is stored as `(50, 40)`, and
`max_reg ≥ min_reg + 1` is not enforced. -/
theorem C2_stored_bounds_unclamped (table : List Reg) (guild : Option Int)
    (channel series_id : Int) (series : SeasonInfo)
    (maybe_min_reg maybe_max_reg : Option Int) (open_ close_ : Bool) :
    (∃ r ∈ upsert_reg table
        (buildReg guild channel series_id series maybe_min_reg maybe_max_reg open_ close_),
        r.channel = channel ∧ r.series_id = series_id)
    ∧ ∀ r ∈ upsert_reg table
        (buildReg guild channel series_id series maybe_min_reg maybe_max_reg open_ close_),
        r.channel = channel → r.series_id = series_id →
          r.min_reg = maybe_min_reg.getD (series.reg_official.tdiv 2)
          ∧ r.max_reg = maybe_max_reg.getD
              (((series.reg_split - series.reg_official).tdiv 2) + series.reg_official) :=
  upsert_reg_stores_bounds table
    (buildReg guild channel series_id series maybe_min_reg maybe_max_reg open_ close_)

/-- Witness for C2 (amended) at the claim's own `(50, 40)` upsert into an
empty table. -/
theorem C2_stored_bounds_unclamped_witness :
    (∃ r ∈ upsert_reg [] (buildReg none 7 3 seasonInfoPCC (some 50) (some 40) false false),
        r.channel = 7 ∧ r.series_id = 3)
    ∧ ∀ r ∈ upsert_reg [] (buildReg none 7 3 seasonInfoPCC (some 50) (some 40) false false),
        r.channel = 7 → r.series_id = 3 →
          r.min_reg = (some (50 : Int)).getD (seasonInfoPCC.reg_official.tdiv 2)
          ∧ r.max_reg = (some (40 : Int)).getD
              (((seasonInfoPCC.reg_split - seasonInfoPCC.reg_official).tdiv 2)
                + seasonInfoPCC.reg_official) :=
  C2_stored_bounds_unclamped [] none 7 3 seasonInfoPCC (some 50) (some 40) false false

/-! ## Claim C3: poll-driver backoff -/

/-- Backoff floor, `def_backoff` in `iracing_loop_task` (1 second). -/
def def_backoff : Nat := 1

/-- Backoff cap, `max_backoff` in `iracing_loop_task` (120 seconds). -/
def max_backoff : Nat := 120

/-- Embeds the backoff control flow of `iracing_loop_task`
(`src/ir_watcher.rs`).  A trace records the outcome of each successive poll
iteration: `true` is a successful inner-loop iteration of `iracing_loop`
(which stays inside the inner loop and never touches `backoff`), `false` is
an iteration whose fetch failed, making `iracing_loop` return `Err` to the
task loop, which then sleeps for the current `backoff` and afterwards sets
`backoff = min(backoff * 2, max_backoff)`.  (The `Ok` arm's `panic!` is dead
code: `iracing_loop` loops forever and can only return early with an error.)
The result is the list of sleep durations, in seconds, in trace order. -/
def backoffSleeps : Nat → List Bool → List Nat
  | _, [] => []
  | b, true :: rest => backoffSleeps b rest
  | b, false :: rest => b :: backoffSleeps (min (b * 2) max_backoff) rest

/-- Sleep durations over a whole trace, starting from the initial backoff. -/
def taskSleeps (trace : List Bool) : List Nat :=
  backoffSleeps def_backoff trace

/-- Claim C3 as stated is false: in the trace failure–success–failure, the
failure that follows the successful iteration sleeps 2 seconds, not the
claimed 1-second floor — nothing in `iracing_loop_task` resets `backoff`
after a successful iteration. -/
theorem C3_counterexample :
    taskSleeps [false, true, false] = [1, 2] ∧ (2 : Nat) ≠ def_backoff := by decide

/-- One doubling step commutes with the closed form under the cap. -/
theorem backoff_double_pow (b i : Nat) :
    min (min (b * 2) max_backoff * 2 ^ i) max_backoff
      = min (b * 2 ^ (i + 1)) max_backoff := by
  have hpow : 0 < 2 ^ i := Nat.two_pow_pos i
  have h21 : b * 2 ^ (i + 1) = b * 2 * 2 ^ i := by ring
  rw [h21]
  rcases le_total (b * 2) max_backoff with h | h
  · rw [min_eq_left h]
  · rw [min_eq_right h]
    have h1 : max_backoff ≤ max_backoff * 2 ^ i := Nat.le_mul_of_pos_right _ hpow
    have h2 : max_backoff ≤ b * 2 * 2 ^ i := le_trans h1 (Nat.mul_le_mul_right _ h)
    rw [min_eq_right h1, min_eq_right h2]

/-- Closed form of the sleep sequence: the i-th failure in the trace (counted
from 0, successes in between ignored) sleeps `min (b * 2 ^ i) max_backoff`. -/
theorem backoffSleeps_closed (trace : List Bool) :
    ∀ b : Nat, b ≤ max_backoff →
      backoffSleeps b trace
        = (List.range (trace.count false)).map (fun i => min (b * 2 ^ i) max_backoff) := by
  induction trace with
  | nil => intro b _; rfl
  | cons x rest ih =>
    intro b hb
    cases x with
    | true =>
      rw [backoffSleeps, ih b hb]
      simp [List.count_cons]
    | false =>
      rw [backoffSleeps, ih _ (min_le_right _ _)]
      have hcount : (false :: rest).count false = rest.count false + 1 := by
        simp [List.count_cons]
      rw [hcount, List.range_succ_eq_map, List.map_cons, List.map_map]
      congr 1
      · rw [pow_zero, Nat.mul_one, min_eq_left hb]
      · refine List.map_congr_left fun i _ => ?_
        simpa using backoff_double_pow b i

/-- Claim C3 (amended): the sleep before retrying is 1 second at the first
failure ever, doubles at every subsequent failure whether or not successful
iterations happened in between, and is capped at 120 seconds; `backoff` is
never reset — a successful iteration leaves it unchanged, so the i-th failure
(from 0) sleeps `min (2 ^ i) 120` seconds. -/
theorem C3_backoff_doubles_never_resets (trace : List Bool) :
    taskSleeps trace
      = (List.range (trace.count false)).map (fun i => min (2 ^ i) max_backoff) := by
  have h := backoffSleeps_closed trace def_backoff (by decide)
  simpa [taskSleeps, def_backoff] using h

/-! ## Claim C4: `Messenger` payload batching -/

/-- Per-destination message batcher from `src/main.rs` (`struct Messenger`):
`buf` is the pending buffer; `sent` collects, in order, the strings handed to
`ChannelId::say` by `flush` (the transport call itself is effect-only and not
modelled).  `String.length` stands in for Rust's byte length, identical on
ASCII payloads. -/
structure Messenger where
  sent : List String
  buf : String
deriving DecidableEq

/-- Embeds `Messenger::flush`: send the buffer as one message unless it is
empty, then clear it. -/
def Messenger.flush (m : Messenger) : Messenger :=
  if m.buf.isEmpty then m else { sent := m.sent ++ [m.buf], buf := "" }

/-- Embeds `Messenger::add`: if `buf.len() + 1 + line.len() > 1950`, flush
first; then append the line and a trailing newline. -/
def Messenger.add (m : Messenger) (line : String) : Messenger :=
  let m1 := if m.buf.length + 1 + line.length > 1950 then m.flush else m
  { m1 with buf := m1.buf ++ line ++ "\n" }

/-- The per-destination send sequence of `announce` (`src/main.rs`): add every
matching rendered line in order, final flush, observe the sent messages. -/
def sendAll (lines : List String) : List String :=
  ((lines.foldl Messenger.add { sent := [], buf := "" }).flush).sent

/-- Batching invariant: every already-sent message and the pending buffer are
within the 1950-character payload limit. -/
def sentOk (m : Messenger) : Prop :=
  (∀ s ∈ m.sent, s.length ≤ 1950) ∧ m.buf.length ≤ 1950

/-- Flushing preserves the batching invariant and empties the buffer. -/
theorem flush_sentOk {m : Messenger} (h : sentOk m) :
    sentOk m.flush ∧ (m.flush).buf.length = 0 := by
  unfold Messenger.flush
  split_ifs with he
  · rw [String.isEmpty_iff] at he
    refine ⟨h, ?_⟩
    rw [he]; rfl
  · refine ⟨⟨?_, by simp⟩, by simp⟩
    intro s hs
    rcases List.mem_append.mp hs with hs | hs
    · exact h.1 s hs
    · rw [List.mem_singleton.mp hs]
      exact h.2

/-- Adding a line of length at most 1949 preserves the batching invariant. -/
theorem add_sentOk {m : Messenger} {line : String} (h : sentOk m)
    (hl : line.length ≤ 1949) : sentOk (m.add line) := by
  have hn : ("\n" : String).length = 1 := rfl
  unfold Messenger.add
  split_ifs with hc
  · have hf := flush_sentOk h
    refine ⟨hf.1.1, ?_⟩
    rw [String.length_append, String.length_append, hf.2, hn]
    omega
  · push_neg at hc
    refine ⟨h.1, ?_⟩
    rw [String.length_append, String.length_append, hn]
    omega

/-- The invariant holds after adding any list of lines of length ≤ 1949. -/
theorem foldl_add_sentOk (lines : List String) :
    ∀ m : Messenger, sentOk m → (∀ l ∈ lines, l.length ≤ 1949) →
      sentOk (lines.foldl Messenger.add m) := by
  induction lines with
  | nil => intro m h _; exact h
  | cons l rest ih =>
    intro m h hall
    exact ih (m.add l) (add_sentOk h (hall l (List.mem_cons_self _ _)))
      fun x hx => hall x (List.mem_cons_of_mem _ hx)

/-- Batching a single line always produces exactly one message consisting of
the line and its trailing newline: the pre-append flush on an empty buffer is
a no-op, and the final flush sends the buffer whole whatever its length. -/
theorem sendAll_single (l : String) : sendAll [l] = ["" ++ l ++ "\n"] := by
  have h0 : ("" : String).length = 0 := rfl
  have hn : ("\n" : String).length = 1 := rfl
  have hadd : Messenger.add { sent := [], buf := "" } l
      = { sent := [], buf := "" ++ l ++ "\n" } := by
    simp only [Messenger.add]
    split_ifs <;> rfl
  have hne : ("" ++ l ++ "\n") ≠ "" := by
    intro h
    have hlen := congrArg String.length h
    rw [String.length_append, String.length_append, h0, hn] at hlen
    omega
  unfold sendAll
  rw [List.foldl_cons, List.foldl_nil, hadd]
  unfold Messenger.flush
  rw [if_neg fun ht => hne ((String.isEmpty_iff _).mp ht)]
  rfl

/-- A maximal-width ASCII line: 1950 copies of `a`. -/
def longLine : String := String.mk (List.replicate 1950 'a')

/-- Length of the long line. -/
theorem longLine_length : longLine.length = 1950 := by
  show (List.replicate 1950 'a').length = 1950
  exact List.length_replicate 1950 'a'

/-- Claim C4 as stated is false: a single rendered line of 1950 characters is
sent as one outbound message of 1951 characters (line plus the appended
newline), exceeding the 1950-character transport limit — `Messenger::add`
flushes before appending but never splits an oversize line. -/
theorem C4_counterexample :
    (sendAll [longLine]).map String.length = [1951] ∧ ¬ ((1951 : Nat) ≤ 1950) := by
  have hn : ("\n" : String).length = 1 := rfl
  have h0 : ("" : String).length = 0 := rfl
  refine ⟨?_, by decide⟩
  rw [sendAll_single longLine, List.map_cons, List.map_nil,
    String.length_append, String.length_append, h0, hn, longLine_length]

/-- Claim C4 (amended): provided every rendered line is at most 1949
characters long, every outbound message produced by the add/flush sequence is
at most 1950 characters; a longer line yields a single oversize message of
its length plus one. -/
theorem C4_messages_within_limit (lines : List String)
    (h : ∀ l ∈ lines, l.length ≤ 1949) :
    ∀ msg ∈ sendAll lines, msg.length ≤ 1950 := by
  have h0 : sentOk { sent := [], buf := "" } := by
    constructor
    · intro s hs; exact absurd hs (List.not_mem_nil s)
    · show String.length "" ≤ 1950
      decide
  have h1 := foldl_add_sentOk lines { sent := [], buf := "" } h0 h
  exact (flush_sentOk h1).1.1

/-- Witness for C4 (amended) on two short lines. -/
theorem C4_messages_within_limit_witness :
    (∀ l ∈ ["first line", "second line"], String.length l ≤ 1949)
    ∧ ∀ msg ∈ sendAll ["first line", "second line"], msg.length ≤ 1950 :=
  ⟨by decide, C4_messages_within_limit ["first line", "second line"] (by decide)⟩

end Regbot
